import Mathlib

/-!
Verification development for the HTTP file server in
`src/withings_sync/server.py`.

The request-handling core is shallowly embedded: Python strings become
`String` (backed by `List Char`, which matches Python's sequence-of-code-points
view for the ASCII data handled here), byte strings become `List UInt8`, and
the filesystem, MIME table and percent-decoding are external collaborators
passed in as explicit arguments (`String → PathType`, `String → Option String`,
pre-decoded request paths).  Floating point in `format_size` is modelled
exactly: every value the Python code manipulates is `size / 1024.0 ^ k` for an
integer `size`, and for sizes below 2^53 each division by `1024.0` and each
comparison against `1024.0` is exact in binary floating point, so the pair
`(numerator, denominator)` carried below reproduces the float semantics
exactly on that range; `"%.1f"` formatting is correct rounding of that exact
dyadic value to one decimal, ties to even.
-/

namespace FileServer

/-! ### Python string primitives (on the code-point list `String.data`) -/

/-- Python `s.startswith(pre)`. -/
def pyStartsWith (s pre : String) : Bool := pre.data.isPrefixOf s.data

/-- Python `s[n:]`. -/
def pyDrop (s : String) (n : Nat) : String := ⟨s.data.drop n⟩

/-- Python `s.endswith('/')`. -/
def endsWithSlash (s : String) : Bool := s.data.getLast? = some '/'

/-- Python `s.lstrip('/')`. -/
def lstripSlash (s : String) : String := ⟨s.data.dropWhile (fun c => c = '/')⟩

/-- Python `s.rstrip('/')`. -/
def rstripSlash (s : String) : String :=
  ⟨(s.data.reverse.dropWhile (fun c => c = '/')).reverse⟩

/-- Python `s.split('?')[0]` (server.py line 87): the prefix before the first
`?`, or the whole string when there is none. -/
def takeBeforeQuery (s : String) : String := ⟨s.data.takeWhile (fun c => c ≠ '?')⟩

/-- Python `s.lower()` as used by the sort key (server.py line 132).  `Char.toLower`
is the ASCII lower-case map, exact for the ASCII names this models. -/
def pylower (s : String) : String := ⟨s.data.map Char.toLower⟩

/-- Python `s.split('/')`: `""` gives `[""]`, separators at the ends give empty
components, like `str.split` with an explicit separator. -/
def splitOnSlash : List Char → List (List Char)
  | [] => [[]]
  | c :: cs =>
    match splitOnSlash cs with
    | [] => [[c]]
    | h :: t => if c = '/' then [] :: h :: t else (c :: h) :: t

/-! ### `os.path` on POSIX paths -/

/-- Python `posixpath.normpath`: collapse repeated separators, drop `.`
components, resolve `..` textually (a leading `..` on an absolute path is
dropped).  Transcribed from CPython's `posixpath.normpath`. -/
def normpath (p : String) : String :=
  if p = "" then "."
  else
    let initial1 : Bool := pyStartsWith p "/"
    let initial2 : Bool := pyStartsWith p "//" && !(pyStartsWith p "///")
    let comps := splitOnSlash p.data
    let newComps := comps.foldl (fun acc comp =>
      if comp = [] ∨ comp = ['.'] then acc
      else if comp ≠ ['.', '.'] ∨ (initial1 = false ∧ acc = []) ∨
          (acc ≠ [] ∧ acc.getLast? = some ['.', '.']) then acc ++ [comp]
      else if acc ≠ [] then acc.dropLast
      else acc) []
    let pre : List Char := if initial1 then (if initial2 then ['/', '/'] else ['/']) else []
    let out := pre ++ List.intercalate ['/'] newComps
    if out = [] then "." else ⟨out⟩

/-- Python `posixpath.join(a, b)` for two components. -/
def pjoin (a b : String) : String :=
  if pyStartsWith b "/" then b
  else if a = "" ∨ endsWithSlash a then a ++ b
  else a ++ "/" ++ b

/-- Python `posixpath.dirname`: everything up to the last `/`; a nonempty
result that is not all slashes loses its trailing slashes. -/
def dirname (p : String) : String :=
  let rest := p.data.reverse.dropWhile (fun c => c ≠ '/')
  if rest ≠ [] ∧ rest.any (fun c => c ≠ '/') then
    ⟨(rest.dropWhile (fun c => c = '/')).reverse⟩
  else ⟨rest.reverse⟩

/-- Python `os.path.basename`: the part after the last `/`. -/
def basename (p : String) : String :=
  ⟨(p.data.reverse.takeWhile (fun c => c ≠ '/')).reverse⟩

/-- Python `os.path.abspath` for the absolute paths this server configures
(`SERVE_DIRECTORY` is absolute, so `abspath` is just `normpath`; joining a
relative path onto the process working directory is not modelled). -/
def os_abspath (p : String) : String := normpath p

/-! ### Configuration (server.py lines 30-35, at their defaults) -/

/-- Default `SERVE_DIRECTORY` (server.py line 31). -/
def SERVE_DIRECTORY : String := "/withings"

/-- Default `BASE_PATH` (server.py line 35). -/
def BASE_PATH : String := "/wt"

/-! ### Request path resolution and routing (`do_GET`, server.py lines 76-110) -/

/-- What a filesystem stat of a resolved path reports to `do_GET`:
`os.path.isdir`, `os.path.isfile`, or neither. -/
inductive PathType where
  | dir
  | file
  | missing
deriving DecidableEq

/-- Outcome of `do_GET`'s routing: 403, directory listing, file streaming,
or 404 (server.py lines 93-106). -/
inductive RouteResult where
  | forbidden (full : String)
  | directory (full : String) (urlPath : String)
  | fileAt (full : String)
  | notFound (full : String)
deriving DecidableEq

/-- Lines 80-90 of server.py, from the percent-decoded request path
(`urllib.parse.unquote` is the stdlib decoding collaborator): strip
`BASE_PATH` when present, force a leading `/`, drop the query string, join
onto `SERVE_DIRECTORY` and normalize.  Returns `(parsed_path, full_path)`. -/
def resolve_request (reqPath : String) : String × String :=
  let p1 := if pyStartsWith reqPath BASE_PATH then pyDrop reqPath BASE_PATH.length else reqPath
  let p2 := if pyStartsWith p1 "/" then p1 else "/" ++ p1
  let p3 := takeBeforeQuery p2
  (p3, normpath (pjoin SERVE_DIRECTORY (lstripSlash p3)))

/-- The security check of server.py line 93:
`full_path.startswith(os.path.abspath(SERVE_DIRECTORY))`. -/
def security_ok (full : String) : Bool := pyStartsWith full (os_abspath SERVE_DIRECTORY)

/-- True containment of a normalized absolute path in the served root: the
path is the root itself or lies strictly below it (prefix at a path-segment
boundary).  This is the property the claim asks the security check to test. -/
def insideRoot (full : String) : Bool :=
  full = SERVE_DIRECTORY || pyStartsWith full (SERVE_DIRECTORY ++ "/")

/-- The dispatch of `do_GET` (server.py lines 93-106), parameterized by the
filesystem's classification of the resolved path. -/
def do_GET_route (fs : String → PathType) (reqPath : String) : RouteResult :=
  let pr := resolve_request reqPath
  if security_ok pr.2 = false then RouteResult.forbidden pr.2
  else
    match fs pr.2 with
    | PathType.dir => RouteResult.directory pr.2 pr.1
    | PathType.file => RouteResult.fileAt pr.2
    | PathType.missing => RouteResult.notFound pr.2

/-! ### `html.escape` (used at server.py lines 197, 211, 225) -/

/-- One character of Python `html.escape(s)` (quote=True).  The source applies
`str.replace` for `&` first and then for the other four characters, which is
the same as this single pass over the original characters. -/
def escapeChar (c : Char) : List Char :=
  if c = '&' then "&amp;".data
  else if c = '<' then "&lt;".data
  else if c = '>' then "&gt;".data
  else if c = '"' then "&quot;".data
  else if c = Char.ofNat 39 then "&#x27;".data
  else [c]

/-- Python `html.escape(s)` with the default `quote=True`. -/
def html_escape (s : String) : String := ⟨s.data.flatMap escapeChar⟩

/-! ### Directory entries (server.py lines 116-132) -/

/-- What a successful `os.stat` (plus `os.path.isdir`) provides for one child.
`st_mtime` only ever reaches the page through
`datetime.fromtimestamp(..).strftime('%Y-%m-%d %H:%M:%S')`, a local-time
rendering that depends on the process environment; the model carries that
rendered string. -/
structure StatInfo where
  size : Nat
  mtimeStr : String
  isDir : Bool
deriving DecidableEq

/-- One entry of the `items` list built at server.py lines 121-127. -/
structure Item where
  name : String
  is_dir : Bool
  size : Nat
  mtime : String
deriving DecidableEq

/-- Lines 117-129: a child whose stat failed is dropped, a child whose stat
succeeded becomes an `Item`. -/
def statItem : String × Option StatInfo → Option Item
  | (_, none) => none
  | (n, some st) => some { name := n, is_dir := st.isDir, size := st.size, mtime := st.mtimeStr }

/-- The sort key of server.py line 132, `(not x['is_dir'], x['name'].lower())`,
as the lexicographic comparison Python's tuple ordering performs
(`False < True` on the first component, code-point order on the second). -/
def itemLE (a b : Item) : Prop :=
  (!a.is_dir) < (!b.is_dir) ∨ ((!a.is_dir) = (!b.is_dir) ∧ pylower a.name ≤ pylower b.name)

instance : DecidableRel itemLE := fun a b =>
  decidable_of_iff
    ((!a.is_dir) < (!b.is_dir) ∨ ((!a.is_dir) = (!b.is_dir) ∧ pylower a.name ≤ pylower b.name))
    Iff.rfl

/-- Python `items.sort(key=lambda x: (not x['is_dir'], x['name'].lower()))`
(server.py line 132): a stable sort by `itemLE`. -/
def sortItems (l : List Item) : List Item := List.insertionSort itemLE l

/-- The items a directory listing renders: stat the children, drop failures,
sort (server.py lines 116-132). -/
def listedItems (children : List (String × Option StatInfo)) : List Item :=
  sortItems (children.filterMap statItem)

/-! ### `format_size` (server.py lines 254-263) -/

/-- Python `f"{size / den:.1f}"` for the exact dyadic value `size / den`:
round `10 * size / den` to the nearest integer, ties to even, then print
`whole.tenth`. -/
def fmtOneDec (size den : Nat) : String :=
  let t := 10 * size
  let q := t / den
  let r := t % den
  let rounded :=
    if den < 2 * r then q + 1
    else if 2 * r < den then q
    else if q % 2 = 0 then q else q + 1
  toString (rounded / 10) ++ "." ++ toString (rounded % 10)

/-- The loop of `format_size`: the running float is `size / den` with `den`
the power of 1024 accumulated so far, so `size < 1024.0` reads
`size < 1024 * den`. -/
def format_size_go (size den : Nat) : List String → String
  | [] => fmtOneDec size den ++ " PB"
  | unit :: rest =>
    if size < 1024 * den then
      if unit = "B" then toString size ++ " " ++ unit
      else fmtOneDec size den ++ " " ++ unit
    else format_size_go size (den * 1024) rest

/-- Python `format_size` (server.py lines 254-263). -/
def format_size (size : Nat) : String :=
  format_size_go size 1 ["B", "KB", "MB", "GB", "TB"]

/-! ### Directory listing HTML (`generate_directory_html`, server.py lines 185-247) -/

/-- Python source normalizes the URL path to end with `/`
(server.py lines 188-189). -/
def ensureTrailingSlash (u : String) : String :=
  if endsWithSlash u then u else u ++ "/"

/-- The fixed head of the document, server.py lines 192-214 (`u` is the
already-normalized URL path). -/
def dirHeaderParts (u : String) : List String :=
  ["<!DOCTYPE html>",
   "<html>",
   "<head>",
   "<meta charset=\"utf-8\">",
   "<title>Directory listing for " ++ html_escape u ++ "</title>",
   "<style>",
   "body \x7b font-family: monospace; margin: 20px; \x7d",
   "table \x7b border-collapse: collapse; \x7d",
   "th, td \x7b padding: 5px 15px; text-align: left; \x7d",
   "th \x7b background-color: #f0f0f0; border-bottom: 2px solid #ddd; \x7d",
   "tr:hover \x7b background-color: #f5f5f5; \x7d",
   "a \x7b text-decoration: none; color: #0066cc; \x7d",
   "a:hover \x7b text-decoration: underline; \x7d",
   ".dir \x7b font-weight: bold; \x7d",
   ".size \x7b text-align: right; \x7d",
   "</style>",
   "</head>",
   "<body>",
   "<h1>Directory listing for " ++ html_escape u ++ "</h1>",
   "<table>",
   "<tr><th>Name</th><th>Size</th><th>Last Modified</th></tr>"]

/-- Server.py lines 218-220: `os.path.dirname(url_path.rstrip('/'))`, with a
`/` appended when missing. -/
def parent_path (u : String) : String :=
  let p := dirname (rstripSlash u)
  if endsWithSlash p then p else p ++ "/"

/-- The parent-directory row, server.py line 221. -/
def parentRowHtml (u : String) : String :=
  "<tr><td colspan=\"3\"><a href=\"" ++ BASE_PATH ++ parent_path u ++
    "\">[Parent Directory]</a></td></tr>"

/-- Server.py lines 217-221: the parent row is appended exactly when
`url_path != '/' and url_path.rstrip('/') != ''`. -/
def parentRows (u : String) : List String :=
  if u ≠ "/" ∧ rstripSlash u ≠ "" then [parentRowHtml u] else []

/-- One table row of the listing, server.py lines 224-237 (`u` is the
normalized URL path). -/
def entryRowHtml (u : String) (it : Item) : String :=
  let name := html_escape it.name
  let name_html :=
    if it.is_dir then
      "<a href=\"" ++ BASE_PATH ++ u ++ name ++ "/\" class=\"dir\">" ++ name ++ "/</a>"
    else
      "<a href=\"" ++ BASE_PATH ++ u ++ name ++ "\">" ++ name ++ "</a>"
  let size_html := if it.is_dir then "&lt;DIR&gt;" else format_size it.size
  "<tr><td>" ++ name_html ++ "</td><td class=\"size\">" ++ size_html ++ "</td><td>" ++
    it.mtime ++ "</td></tr>"

/-- The closing parts, server.py lines 239-245, with the item count footer. -/
def dirFooterParts (items : List Item) : List String :=
  ["</table>",
   "<hr>",
   "<p>" ++ toString items.length ++ " items</p>",
   "</body>",
   "</html>"]

/-- All parts of the document in order (the `html_parts` list of the source). -/
def directoryHtmlParts (items : List Item) (url_path : String) : List String :=
  let u := ensureTrailingSlash url_path
  dirHeaderParts u ++ parentRows u ++ items.map (entryRowHtml u) ++ dirFooterParts items

/-- Python `'\n'.join(...)`. -/
def joinLines : List String → String
  | [] => ""
  | [s] => s
  | s :: rest => s ++ "\n" ++ joinLines rest

/-- Python `generate_directory_html(items, url_path)` (server.py lines 185-247). -/
def generate_directory_html (items : List Item) (url_path : String) : String :=
  joinLines (directoryHtmlParts items url_path)

/-! ### `serve_directory` (server.py lines 112-148) -/

/-- The HTTP response `serve_directory` produces on success
(server.py lines 138-142). -/
structure DirResponse where
  status : Nat
  contentType : String
  contentLength : Nat
  body : ByteArray

/-- Python `serve_directory(dir_path, url_path)`, success path: stat the
children, drop failures, sort, render, send 200 with the UTF-8 document. -/
def serve_directory (children : List (String × Option StatInfo)) (url_path : String) :
    DirResponse :=
  let items := listedItems children
  let html_content := generate_directory_html items url_path
  { status := 200
    contentType := "text/html; charset=utf-8"
    contentLength := (String.toUTF8 html_content).size
    body := String.toUTF8 html_content }

/-! ### `serve_file` (server.py lines 151-183) -/

/-- Server.py lines 158-160: `mimetypes.guess_type` (the stdlib MIME table,
passed in as `guess`) with Python's falsy check `if not content_type`. -/
def guessContentType (guess : String → Option String) (path : String) : String :=
  let ct := (guess path).getD ""
  if ct = "" then "application/octet-stream" else ct

/-- The read loop of server.py lines 170-177: `f.read(BUFFER_SIZE)` chunks
until a read returns empty. -/
def readChunks (bufSize : Nat) (data : List UInt8) : List (List UInt8) :=
  if h : data.take bufSize = [] then []
  else data.take bufSize :: readChunks bufSize (data.drop bufSize)
termination_by data.length
decreasing_by
  have hd : data ≠ [] := by
    intro hnil
    simp [hnil] at h
  have hb : bufSize ≠ 0 := by
    intro h0
    simp [h0] at h
  simp only [List.length_drop]
  exact Nat.sub_lt (List.length_pos.mpr hd) (Nat.pos_of_ne_zero hb)

/-- The HTTP response `serve_file` produces on success
(server.py lines 163-177). -/
structure FileResponse where
  status : Nat
  contentType : String
  contentLength : Nat
  contentDisposition : String
  bodyChunks : List (List UInt8)

/-- Python `serve_file(file_path)`, success path; the file is modelled by its
byte contents (`os.path.getsize` is their length). -/
def serve_file (guess : String → Option String) (bufSize : Nat) (file_path : String)
    (contents : List UInt8) : FileResponse :=
  let file_size := contents.length
  { status := 200
    contentType := guessContentType guess file_path
    contentLength := file_size
    contentDisposition := "inline; filename=\"" ++ basename file_path ++ "\""
    bodyChunks := readChunks bufSize contents }

/-- What `serve_file` writes onto the HTTP connection, in order.
`BaseHTTPRequestHandler.end_headers` flushes the status line and headers to
the socket, so everything before a later failure has already been sent. -/
inductive HEvent where
  | statusLine (code : Nat)
  | header (name value : String)
  | endHeaders
  | bodyChunk (bytes : List UInt8)
  | errorResponse (code : Nat) (msg : String)
deriving DecidableEq

/-- Whether an event is the `send_error` response. -/
def HEvent.isError : HEvent → Bool
  | HEvent.errorResponse _ _ => true
  | _ => false

/-- The header block sent at server.py lines 163-167, before the file is
opened. -/
def serve_file_headers (guess : String → Option String) (file_path : String)
    (file_size : Nat) : List HEvent :=
  [HEvent.statusLine 200,
   HEvent.header "Content-Type" (guessContentType guess file_path),
   HEvent.header "Content-Length" (toString file_size),
   HEvent.header "Content-Disposition" ("inline; filename=\"" ++ basename file_path ++ "\""),
   HEvent.endHeaders]

/-- The write loop of server.py lines 170-177, driven by the successive
results of the `f.read(BUFFER_SIZE)` calls: `chunks` are the values the reads
return in order, and after them the next read either returns an empty bytes
object (`tail = none`: `if not chunk: break` ends the loop cleanly) or raises
(`tail = some e`: the exception escapes to the `except` clause, which sends
the 500 error response after whatever has already been written).  An empty
chunk inside `chunks` stops the loop at that point, before the remaining
reads happen. -/
def writeChunks : List (List UInt8) → Option String → List HEvent
  | [], none => []
  | [], some e => [HEvent.errorResponse 500 ("Error serving file: " ++ e)]
  | c :: rest, tail =>
    if c = [] then []
    else HEvent.bodyChunk c :: writeChunks rest tail

/-- The event trace of `serve_file` (server.py lines 151-183) with fallible
collaborators: `sizeRes` is `os.path.getsize` (line 155, before any output);
`openRes` is `open(file_path, 'rb')` at line 171, after the headers went out:
`Except.error e` when the open itself raises, `Except.ok (chunks, tail)` when
it succeeds, with `chunks` the successive results of the `f.read(BUFFER_SIZE)`
calls and `tail` saying whether the read after them returns empty (end of
file) or raises mid-stream.  Any exception reaches the `except` clause, which
calls `send_error(500, f"Error serving file: {e}")` after everything already
written. -/
def serve_file_events (guess : String → Option String) (file_path : String)
    (sizeRes : Except String Nat)
    (openRes : Except String (List (List UInt8) × Option String)) : List HEvent :=
  match sizeRes with
  | Except.error e => [HEvent.errorResponse 500 ("Error serving file: " ++ e)]
  | Except.ok file_size =>
    match openRes with
    | Except.error e =>
      serve_file_headers guess file_path file_size ++
        [HEvent.errorResponse 500 ("Error serving file: " ++ e)]
    | Except.ok (chunks, tail) =>
      serve_file_headers guess file_path file_size ++ writeChunks chunks tail

/-! ### Helpers used only by the theorems below -/

/-- Substring test: `pat` occurs somewhere in `s`. -/
def occursIn (pat s : String) : Bool :=
  s.data.tails.any (fun t => pat.data.isPrefixOf t)

/-- Join URL path segments with `/` (used to quantify over well-formed URL
paths in the parent-link theorem). -/
def joinSlash : List String → String
  | [] => ""
  | [s] => s
  | s :: rest => s ++ "/" ++ joinSlash rest

/-- A well-formed URL path segment: nonempty and slash-free. -/
def GoodSeg (s : String) : Prop := s ≠ "" ∧ ∀ c ∈ s.data, c ≠ '/'

instance : IsTotal Item itemLE :=
  ⟨fun a b => by
    rcases lt_trichotomy (!a.is_dir) (!b.is_dir) with h | h | h
    · exact Or.inl (Or.inl h)
    · rcases le_total (pylower a.name) (pylower b.name) with hn | hn
      · exact Or.inl (Or.inr ⟨h, hn⟩)
      · exact Or.inr (Or.inr ⟨h.symm, hn⟩)
    · exact Or.inr (Or.inl h)⟩

instance : IsTrans Item itemLE :=
  ⟨fun a b c hab hbc => by
    rcases hab with h1 | ⟨e1, l1⟩
    · rcases hbc with h2 | ⟨e2, _⟩
      · exact Or.inl (lt_trans h1 h2)
      · exact Or.inl (lt_of_lt_of_le h1 (le_of_eq e2))
    · rcases hbc with h2 | ⟨e2, l2⟩
      · exact Or.inl (lt_of_le_of_lt (le_of_eq e1) h2)
      · exact Or.inr ⟨e1.trans e2, le_trans l1 l2⟩⟩

/-! ### Theorems -/

/-- C1: the spec demands that the containment test be a true path-prefix check
on the normalized path, rejecting with 403 everything outside the served root;
the code's check (line 93) is `startswith` on the raw string, which also
accepts sibling directories whose name merely extends the root's name.  The
percent-decoded request `/wt/../withings-evil/secret` resolves (normalized) to
`/withings-evil/secret`, which is outside the root `/withings`, yet the
security check accepts it and the request is routed to file serving instead of
being answered 403; a plain traversal such as `/wt/../../etc/passwd` is, by
contrast, rejected. -/
theorem security_check_is_naive_prefix_not_containment :
    (resolve_request "/wt/../withings-evil/secret").2 = "/withings-evil/secret" ∧
    security_ok "/withings-evil/secret" = true ∧
    insideRoot "/withings-evil/secret" = false ∧
    do_GET_route (fun p => if p = "/withings-evil/secret" then PathType.file else PathType.missing)
      "/wt/../withings-evil/secret" = RouteResult.fileAt "/withings-evil/secret" ∧
    (resolve_request "/wt/../../etc/passwd").2 = "/etc/passwd" ∧
    do_GET_route (fun _ => PathType.file) "/wt/../../etc/passwd" =
      RouteResult.forbidden "/etc/passwd" := by
  decide

/-- C2: `format_size` walks the units B, KB, MB, GB, TB dividing by 1024 while
the value is at least 1024 and stops at the first unit where it is below 1024:
bytes print as a bare integer, every later unit prints the exact dyadic value
`n / 1024 ^ k` rounded to exactly one decimal place, values at or above
`1024 ^ 5` print in PB, and the four concrete examples of the spec hold. -/
theorem format_size_spec :
    (∀ n : Nat, n < 1024 → format_size n = toString n ++ " B") ∧
    (∀ n den : Nat, ∃ a b : Nat, b < 10 ∧ fmtOneDec n den = toString a ++ "." ++ toString b) ∧
    (∀ n : Nat, 1024 ≤ n → n < 1024 ^ 2 → format_size n = fmtOneDec n 1024 ++ " KB") ∧
    (∀ n : Nat, 1024 ^ 2 ≤ n → n < 1024 ^ 3 → format_size n = fmtOneDec n (1024 ^ 2) ++ " MB") ∧
    (∀ n : Nat, 1024 ^ 3 ≤ n → n < 1024 ^ 4 → format_size n = fmtOneDec n (1024 ^ 3) ++ " GB") ∧
    (∀ n : Nat, 1024 ^ 4 ≤ n → n < 1024 ^ 5 → format_size n = fmtOneDec n (1024 ^ 4) ++ " TB") ∧
    (∀ n : Nat, 1024 ^ 5 ≤ n → format_size n = fmtOneDec n (1024 ^ 5) ++ " PB") ∧
    format_size 0 = "0 B" ∧ format_size 1023 = "1023 B" ∧
    format_size 1536 = "1.5 KB" ∧ format_size 1073741824 = "1.0 GB" := by
  refine ⟨?_, ?_, ?_, ?_, ?_, ?_, ?_, by decide, by decide, by decide, by decide⟩
  · intro n h
    simp only [format_size, format_size_go]
    rw [if_pos (show n < 1024 * 1 by omega), if_pos trivial, String.append_assoc]
    exact congrArg (fun s => toString n ++ s) (by decide)
  · intro n den
    unfold fmtOneDec
    exact ⟨_, _, Nat.mod_lt _ (by norm_num), rfl⟩
  · intro n h1 h2
    norm_num at h2
    simp only [format_size, format_size_go]
    rw [if_neg (show ¬ n < 1024 * 1 by omega),
      if_pos (show n < 1024 * (1 * 1024) by omega),
      if_neg (show ¬ ("KB" = "B") by decide), String.append_assoc]
    norm_num
    exact congrArg (fun s => fmtOneDec n (1024) ++ s) (by decide)
  · intro n h1 h2
    norm_num at h1 h2
    simp only [format_size, format_size_go]
    rw [if_neg (show ¬ n < 1024 * 1 by omega),
      if_neg (show ¬ n < 1024 * (1 * 1024) by omega),
      if_pos (show n < 1024 * (1 * 1024 * 1024) by omega),
      if_neg (show ¬ ("MB" = "B") by decide), String.append_assoc]
    norm_num
    exact congrArg (fun s => fmtOneDec n 1048576 ++ s) (by decide)
  · intro n h1 h2
    norm_num at h1 h2
    simp only [format_size, format_size_go]
    rw [if_neg (show ¬ n < 1024 * 1 by omega),
      if_neg (show ¬ n < 1024 * (1 * 1024) by omega),
      if_neg (show ¬ n < 1024 * (1 * 1024 * 1024) by omega),
      if_pos (show n < 1024 * (1 * 1024 * 1024 * 1024) by omega),
      if_neg (show ¬ ("GB" = "B") by decide), String.append_assoc]
    norm_num
    exact congrArg (fun s => fmtOneDec n 1073741824 ++ s) (by decide)
  · intro n h1 h2
    norm_num at h1 h2
    simp only [format_size, format_size_go]
    rw [if_neg (show ¬ n < 1024 * 1 by omega),
      if_neg (show ¬ n < 1024 * (1 * 1024) by omega),
      if_neg (show ¬ n < 1024 * (1 * 1024 * 1024) by omega),
      if_neg (show ¬ n < 1024 * (1 * 1024 * 1024 * 1024) by omega),
      if_pos (show n < 1024 * (1 * 1024 * 1024 * 1024 * 1024) by omega),
      if_neg (show ¬ ("TB" = "B") by decide), String.append_assoc]
    norm_num
    exact congrArg (fun s => fmtOneDec n 1099511627776 ++ s) (by decide)
  · intro n h
    norm_num at h
    simp only [format_size, format_size_go]
    rw [if_neg (show ¬ n < 1024 * 1 by omega),
      if_neg (show ¬ n < 1024 * (1 * 1024) by omega),
      if_neg (show ¬ n < 1024 * (1 * 1024 * 1024) by omega),
      if_neg (show ¬ n < 1024 * (1 * 1024 * 1024 * 1024) by omega),
      if_neg (show ¬ n < 1024 * (1 * 1024 * 1024 * 1024 * 1024) by omega)]
    norm_num

/-- C4: for every directory listing the response carries status 200, the
`text/html; charset=utf-8` content type, a Content-Length equal to the byte
size of the body, and the body is exactly the UTF-8 encoding of the generated
document. -/
theorem serve_directory_response_headers (children : List (String × Option StatInfo))
    (url_path : String) :
    (serve_directory children url_path).status = 200 ∧
    (serve_directory children url_path).contentType = "text/html; charset=utf-8" ∧
    (serve_directory children url_path).contentLength =
      (serve_directory children url_path).body.size ∧
    (serve_directory children url_path).body =
      String.toUTF8 (generate_directory_html (listedItems children) url_path) :=
  ⟨rfl, rfl, rfl, rfl⟩

/-- C10: a request for the bare base path `/wt` strips to the empty string,
is normalized to the root-relative URL path `/`, resolves to the served root
`/withings`, and when the root is a directory the request is routed to the
root's directory listing (neither 403 nor 404). -/
theorem bare_base_path_serves_root_listing (fs : String → PathType)
    (hroot : fs "/withings" = PathType.dir) :
    resolve_request "/wt" = ("/", "/withings") ∧
    do_GET_route fs "/wt" = RouteResult.directory "/withings" "/" := by
  refine ⟨by decide, ?_⟩
  have h : do_GET_route fs "/wt" =
      (match fs "/withings" with
       | PathType.dir => RouteResult.directory "/withings" "/"
       | PathType.file => RouteResult.fileAt "/withings"
       | PathType.missing => RouteResult.notFound "/withings") := rfl
  rw [h, hroot]

/-- C10 witness: with a filesystem whose every path is a directory, `/wt`
serves the root listing. -/
theorem bare_base_path_serves_root_listing_witness :
    resolve_request "/wt" = ("/", "/withings") ∧
    do_GET_route (fun _ => PathType.dir) "/wt" = RouteResult.directory "/withings" "/" :=
  bare_base_path_serves_root_listing (fun _ => PathType.dir) rfl

/-- C3: the rendered items are exactly the children whose stat succeeded (a
permutation, hence one row per such child), ordered with every directory
before every non-directory and, within entries of equal directory status, in
case-insensitive (lower-cased) lexicographic order of the name. -/
theorem directory_rows_one_per_child_sorted (children : List (String × Option StatInfo)) :
    List.Perm (listedItems children) (children.filterMap statItem) ∧
    List.Pairwise (fun (a b : Item) =>
        (b.is_dir = true → a.is_dir = true) ∧
        (a.is_dir = b.is_dir → pylower a.name ≤ pylower b.name))
      (listedItems children) := by
  constructor
  · exact List.perm_insertionSort itemLE _
  · have hs : List.Pairwise itemLE (listedItems children) :=
      List.sorted_insertionSort itemLE _
    refine hs.imp ?_
    intro a b hab
    constructor
    · intro hb
      rcases hab with h | ⟨e, _⟩
      · rcases Bool.lt_iff.mp h with ⟨_, hb2⟩
        rw [hb] at hb2
        exact absurd hb2 (by simp)
      · rw [hb] at e
        simpa using e
    · intro he
      rcases hab with h | ⟨_, hl⟩
      · rw [he] at h
        exact absurd h (lt_irrefl _)
      · exact hl

/-- Helper: with a positive chunk size, concatenating the chunks of the read
loop reproduces the file contents. -/
theorem readChunks_flatten (bufSize : Nat) (hb : 0 < bufSize) (data : List UInt8) :
    (readChunks bufSize data).flatten = data := by
  unfold readChunks
  split
  · rename_i h
    rcases List.take_eq_nil_iff.mp h with h0 | h0
    · omega
    · simp [h0]
  · simp only [List.flatten_cons]
    rw [readChunks_flatten bufSize hb (data.drop bufSize)]
    exact List.take_append_drop bufSize data
termination_by data.length
decreasing_by
  rename_i h
  have hd : data ≠ [] := by
    intro hnil
    simp [hnil] at h
  simp only [List.length_drop]
  exact Nat.sub_lt (List.length_pos.mpr hd) hb

/-- Helper: every chunk the read loop produces is nonempty and no longer than
the chunk size (stated with an explicit length bound for the induction). -/
theorem readChunks_chunk_bounds_aux (bufSize : Nat) :
    ∀ (n : Nat) (data : List UInt8), data.length ≤ n →
      ∀ c ∈ readChunks bufSize data, c ≠ [] ∧ c.length ≤ bufSize := by
  intro n
  induction n with
  | zero =>
    intro data hlen c hc
    have hnil : data = [] := List.eq_nil_of_length_eq_zero (Nat.le_zero.mp hlen)
    subst hnil
    unfold readChunks at hc
    simp at hc
  | succ n ih =>
    intro data hlen c hc
    unfold readChunks at hc
    split at hc
    · simp at hc
    · rename_i h
      rcases List.mem_cons.mp hc with rfl | hmem
      · exact ⟨h, List.length_take_le bufSize data⟩
      · refine ih (data.drop bufSize) ?_ c hmem
        have hd : data ≠ [] := by
          intro hnil
          simp [hnil] at h
        have hbpos : bufSize ≠ 0 := by
          intro h0
          simp [h0] at h
        have hdlen : 0 < data.length := List.length_pos.mpr hd
        simp only [List.length_drop]
        omega

/-- Helper: every chunk the read loop produces is nonempty and no longer than
the chunk size. -/
theorem readChunks_chunk_bounds (bufSize : Nat) (data : List UInt8) :
    ∀ c ∈ readChunks bufSize data, c ≠ [] ∧ c.length ≤ bufSize :=
  readChunks_chunk_bounds_aux bufSize data.length data le_rfl

/-- C7: serving an existing regular file yields status 200, Content-Length
equal to the file's byte size, a body that is exactly the file contents
written in nonempty chunks of at most the configured chunk size, and a
content type from the MIME lookup, `application/octet-stream` when the lookup
yields nothing. -/
theorem serve_file_success (guess : String → Option String) (bufSize : Nat)
    (file_path : String) (contents : List UInt8) (hb : 0 < bufSize) :
    (serve_file guess bufSize file_path contents).status = 200 ∧
    (serve_file guess bufSize file_path contents).contentLength = contents.length ∧
    (serve_file guess bufSize file_path contents).bodyChunks.flatten = contents ∧
    (∀ c ∈ (serve_file guess bufSize file_path contents).bodyChunks,
      c ≠ [] ∧ c.length ≤ bufSize) ∧
    (guess file_path = none →
      (serve_file guess bufSize file_path contents).contentType = "application/octet-stream") ∧
    (∀ t, guess file_path = some t → t ≠ "" →
      (serve_file guess bufSize file_path contents).contentType = t) := by
  refine ⟨rfl, rfl, readChunks_flatten bufSize hb contents,
    readChunks_chunk_bounds bufSize contents, ?_, ?_⟩
  · intro hn
    simp [serve_file, guessContentType, hn]
  · intro t ht hne
    simp [serve_file, guessContentType, ht, hne]

/-- C7 witness: a three-byte file served with chunk size 2 and no MIME
match. -/
theorem serve_file_success_witness :
    (serve_file (fun _ => none) 2 "data.bin" [1, 2, 3]).status = 200 ∧
    (serve_file (fun _ => none) 2 "data.bin" [1, 2, 3]).contentLength =
      ([1, 2, 3] : List UInt8).length ∧
    (serve_file (fun _ => none) 2 "data.bin" [1, 2, 3]).bodyChunks.flatten =
      ([1, 2, 3] : List UInt8) ∧
    (∀ c ∈ (serve_file (fun _ => none) 2 "data.bin" [1, 2, 3]).bodyChunks,
      c ≠ [] ∧ c.length ≤ 2) ∧
    ((fun (_ : String) => (none : Option String)) "data.bin" = none →
      (serve_file (fun _ => none) 2 "data.bin" [1, 2, 3]).contentType =
        "application/octet-stream") ∧
    (∀ t, (fun (_ : String) => (none : Option String)) "data.bin" = some t → t ≠ "" →
      (serve_file (fun _ => none) 2 "data.bin" [1, 2, 3]).contentType = t) :=
  serve_file_success (fun _ => none) 2 "data.bin" [1, 2, 3] (by norm_num)

/-- Helper: the number of children whose stat succeeded. -/
theorem statItem_length (children : List (String × Option StatInfo)) :
    (children.filterMap statItem).length = (children.filter (fun ch => ch.2.isSome)).length := by
  induction children with
  | nil => rfl
  | cons ch rest ih =>
    rcases ch with ⟨n, st⟩
    cases st with
    | none => simpa [statItem, List.filterMap_cons, List.filter_cons] using ih
    | some s => simpa [statItem, List.filterMap_cons, List.filter_cons] using ih

/-- C8: children whose stat failed are dropped and the listing is still
produced (status 200 for every child list), and the footer item count is the
number of successfully stat'd children — the dropped children and the
parent-directory row (which is prepended after `items` is fixed and never
enters `len(items)`) do not count.  Logging of the per-child warning is an
effect outside the response model. -/
theorem failed_stats_dropped_footer_count (children : List (String × Option StatInfo))
    (url_path : String) :
    (serve_directory children url_path).status = 200 ∧
    (listedItems children).length = (children.filter (fun ch => ch.2.isSome)).length ∧
    ("<p>" ++ toString ((children.filter (fun ch => ch.2.isSome)).length) ++ " items</p>")
      ∈ directoryHtmlParts (listedItems children) url_path := by
  have hlen : (listedItems children).length = (children.filter (fun ch => ch.2.isSome)).length :=
    ((List.perm_insertionSort itemLE _).length_eq).trans (statItem_length children)
  refine ⟨rfl, hlen, ?_⟩
  have hmem : ("<p>" ++ toString ((listedItems children).length) ++ " items</p>")
      ∈ dirFooterParts (listedItems children) := by
    simp [dirFooterParts]
  rw [hlen] at hmem
  exact List.mem_append_right _ hmem

/-- Helper: when every read returns a nonempty chunk and the next read raises,
the loop writes all the chunks and the 500 error response follows them. -/
theorem writeChunks_error (e : String) (chunks : List (List UInt8))
    (h : ∀ c ∈ chunks, c ≠ []) :
    writeChunks chunks (some e) = chunks.map HEvent.bodyChunk ++
      [HEvent.errorResponse 500 ("Error serving file: " ++ e)] := by
  induction chunks with
  | nil => rfl
  | cons c rest ih =>
    simp only [writeChunks, List.map_cons, List.cons_append]
    rw [if_neg (h c (by simp)), ih (fun x hx => h x (by simp [hx]))]

/-- Helper: when every read returns a nonempty chunk and the next read is the
empty end-of-file read, the loop writes exactly the chunks and no error. -/
theorem writeChunks_clean (chunks : List (List UInt8)) (h : ∀ c ∈ chunks, c ≠ []) :
    writeChunks chunks none = chunks.map HEvent.bodyChunk := by
  induction chunks with
  | nil => rfl
  | cons c rest ih =>
    simp only [writeChunks, List.map_cons]
    rw [if_neg (h c (by simp)), ih (fun x hx => h x (by simp [hx]))]

/-- C9 counterexample: a file whose stat and size lookup succeed but whose
`open` fails is answered with the 200 status line and full header block first
and the 500 error response only after them — not with a single clean 500
response. -/
theorem unopenable_file_gets_200_header_then_500 :
    ((serve_file_events (fun _ => none) "/withings/secret.bin" (Except.ok 5)
        (Except.error "Permission denied")).head? = some (HEvent.statusLine 200)) ∧
    HEvent.errorResponse 500 "Error serving file: Permission denied" ∈
      serve_file_events (fun _ => none) "/withings/secret.bin" (Except.ok 5)
        (Except.error "Permission denied") ∧
    serve_file_events (fun _ => none) "/withings/secret.bin" (Except.ok 5)
        (Except.error "Permission denied") ≠
      [HEvent.errorResponse 500 "Error serving file: Permission denied"] := by
  decide

/-- C9 as amended: a failure before anything is sent (the size lookup of
line 155) produces a single clean 500 error response.  When the size lookup
succeeds, the 200 status line and headers are written before the file is
opened: a failing open is followed by the single 500 error response with no
body chunk, a read failing mid-stream is followed by the 500 error response
after the body chunks already written, and only when every read succeeds does
the trace end cleanly with the chunks and no error response. -/
theorem serve_file_failure_responses (guess : String → Option String)
    (file_path e : String) (openRes : Except String (List (List UInt8) × Option String))
    (n : Nat) (chunks : List (List UInt8)) :
    serve_file_events guess file_path (Except.error e) openRes =
      [HEvent.errorResponse 500 ("Error serving file: " ++ e)] ∧
    serve_file_events guess file_path (Except.ok n) (Except.error e) =
      serve_file_headers guess file_path n ++
        [HEvent.errorResponse 500 ("Error serving file: " ++ e)] ∧
    (serve_file_events guess file_path (Except.ok n) (Except.error e)).head? =
      some (HEvent.statusLine 200) ∧
    ((serve_file_events guess file_path (Except.ok n) (Except.error e)).filter
        HEvent.isError).length = 1 ∧
    (∀ bytes, HEvent.bodyChunk bytes ∉
      serve_file_events guess file_path (Except.ok n) (Except.error e)) ∧
    ((∀ c ∈ chunks, c ≠ []) →
      serve_file_events guess file_path (Except.ok n) (Except.ok (chunks, some e)) =
        serve_file_headers guess file_path n ++
          (chunks.map HEvent.bodyChunk ++
            [HEvent.errorResponse 500 ("Error serving file: " ++ e)])) ∧
    ((∀ c ∈ chunks, c ≠ []) →
      serve_file_events guess file_path (Except.ok n) (Except.ok (chunks, none)) =
        serve_file_headers guess file_path n ++ chunks.map HEvent.bodyChunk) := by
  refine ⟨rfl, rfl, rfl, ?_, ?_, ?_, ?_⟩
  · simp [serve_file_events, serve_file_headers, HEvent.isError]
  · intro bytes
    simp [serve_file_events, serve_file_headers]
  · intro h
    show serve_file_headers guess file_path n ++ writeChunks chunks (some e) = _
    rw [writeChunks_error e chunks h]
  · intro h
    show serve_file_headers guess file_path n ++ writeChunks chunks none = _
    rw [writeChunks_clean chunks h]

/-- Helper: the expansion of a single character under `html.escape` never
contains a raw `<`, `>` or `"`. -/
theorem escapeChar_no_markup (c : Char) :
    ∀ x ∈ escapeChar c, x ≠ '<' ∧ x ≠ '>' ∧ x ≠ '"' := by
  intro x hx
  unfold escapeChar at hx
  split_ifs at hx with h1 h2 h3 h4 h5
  · rw [show ("&amp;".data) = ['&', 'a', 'm', 'p', ';'] from rfl] at hx
    simp only [List.mem_cons, List.not_mem_nil, or_false] at hx
    rcases hx with rfl | rfl | rfl | rfl | rfl <;> decide
  · rw [show ("&lt;".data) = ['&', 'l', 't', ';'] from rfl] at hx
    simp only [List.mem_cons, List.not_mem_nil, or_false] at hx
    rcases hx with rfl | rfl | rfl | rfl <;> decide
  · rw [show ("&gt;".data) = ['&', 'g', 't', ';'] from rfl] at hx
    simp only [List.mem_cons, List.not_mem_nil, or_false] at hx
    rcases hx with rfl | rfl | rfl | rfl <;> decide
  · rw [show ("&quot;".data) = ['&', 'q', 'u', 'o', 't', ';'] from rfl] at hx
    simp only [List.mem_cons, List.not_mem_nil, or_false] at hx
    rcases hx with rfl | rfl | rfl | rfl | rfl | rfl <;> decide
  · rw [show ("&#x27;".data) = ['&', '#', 'x', '2', '7', ';'] from rfl] at hx
    simp only [List.mem_cons, List.not_mem_nil, or_false] at hx
    rcases hx with rfl | rfl | rfl | rfl | rfl | rfl <;> decide
  · simp only [List.mem_cons, List.not_mem_nil, or_false] at hx
    subst hx
    exact ⟨h2, h3, h4⟩

/-- Helper: HTML-escaped text never contains a raw `<`, `>` or `"`. -/
theorem html_escape_no_markup (s : String) :
    ∀ c ∈ (html_escape s).data, c ≠ '<' ∧ c ≠ '>' ∧ c ≠ '"' := by
  intro c hc
  have hdata : (html_escape s).data = s.data.flatMap escapeChar := rfl
  rw [hdata] at hc
  rcases List.mem_flatMap.mp hc with ⟨x, _, hcx⟩
  exact escapeChar_no_markup x c hcx

/-- Helper: a directory row contains exactly the ten `<` of the fixed row
template, whatever the entry's name is — the name (escaped twice into the row)
can never contribute a raw `<`. -/
theorem dir_row_markup_count (u : String) (it : Item) (hdir : it.is_dir = true)
    (hu : ∀ c ∈ u.data, c ≠ '<') (hm : ∀ c ∈ it.mtime.data, c ≠ '<') :
    ((entryRowHtml u it).data.count '<') = 10 := by
  have hname : ((html_escape it.name).data.count '<') = 0 :=
    List.count_eq_zero.mpr (fun h => ((html_escape_no_markup it.name '<' h).1) rfl)
  have hucnt : (u.data.count '<') = 0 :=
    List.count_eq_zero.mpr (fun h => hu '<' h rfl)
  have hmcnt : (it.mtime.data.count '<') = 0 :=
    List.count_eq_zero.mpr (fun h => hm '<' h rfl)
  simp only [entryRowHtml, hdir, if_true, String.data_append, List.count_append,
    hname, hucnt, hmcnt]
  decide

set_option maxRecDepth 8192 in
/-- C5 counterexample: for the URL path `/a"b/` the generated document embeds
the raw, unescaped URL path inside a link target (`href="/wt/a"b/f.txt"`),
although its HTML-escaped form would be `/a&quot;b/`, which never appears in a
link target: the URL path is not escaped wherever it is embedded. -/
theorem url_path_unescaped_in_link_targets :
    occursIn "href=\"/wt/a\"b/f.txt\""
      (generate_directory_html
        [{ name := "f.txt", is_dir := false, size := 3, mtime := "2024-01-01 00:00:00" }]
        "/a\"b/") = true ∧
    html_escape "/a\"b/" = "/a&quot;b/" ∧
    occursIn "/wt/a&quot;b/f.txt"
      (generate_directory_html
        [{ name := "f.txt", is_dir := false, size := 3, mtime := "2024-01-01 00:00:00" }]
        "/a\"b/") = false := by
  decide

set_option maxRecDepth 8192 in
/-- C5 as amended: every file or directory name is embedded only through
`html.escape` (escaped text contains no raw `<`, `>` or `"`, a directory row
carries exactly the template's ten `<` whatever the name, and a file literally
named `<b>.txt` appears as `&lt;b&gt;.txt` and never as raw markup), and the
URL path is escaped in the title and the heading; the URL path is, however,
embedded raw and unescaped in the generated link targets. -/
theorem names_escaped_url_path_raw_in_hrefs :
    (∀ s : String, ∀ c ∈ (html_escape s).data, c ≠ '<' ∧ c ≠ '>' ∧ c ≠ '"') ∧
    (∀ u : String, ∀ it : Item, it.is_dir = true →
      (∀ c ∈ u.data, c ≠ '<') → (∀ c ∈ it.mtime.data, c ≠ '<') →
      ((entryRowHtml u it).data.count '<') = 10) ∧
    (∀ (items : List Item) (u : String),
      ("<title>Directory listing for " ++ html_escape (ensureTrailingSlash u) ++ "</title>")
        ∈ directoryHtmlParts items u ∧
      ("<h1>Directory listing for " ++ html_escape (ensureTrailingSlash u) ++ "</h1>")
        ∈ directoryHtmlParts items u) ∧
    occursIn "&lt;b&gt;.txt" (generate_directory_html
      [{ name := "<b>.txt", is_dir := false, size := 5, mtime := "2024-01-01 00:00:00" }]
      "/") = true ∧
    occursIn "<b>.txt" (generate_directory_html
      [{ name := "<b>.txt", is_dir := false, size := 5, mtime := "2024-01-01 00:00:00" }]
      "/") = false ∧
    occursIn "href=\"/wt/a\"b/g.txt\"" (generate_directory_html
      [{ name := "g.txt", is_dir := false, size := 3, mtime := "2024-01-01 00:00:00" }]
      "/a\"b/") = true := by
  refine ⟨html_escape_no_markup, dir_row_markup_count, ?_, by decide, by decide, by decide⟩
  intro items u
  constructor
  · have h : ("<title>Directory listing for " ++ html_escape (ensureTrailingSlash u) ++
        "</title>") ∈ dirHeaderParts (ensureTrailingSlash u) := by
      unfold dirHeaderParts
      exact List.mem_cons_of_mem _ (List.mem_cons_of_mem _ (List.mem_cons_of_mem _
        (List.mem_cons_of_mem _ (List.mem_cons_self _ _))))
    exact List.mem_append_left _ (List.mem_append_left _ (List.mem_append_left _ h))
  · have h : ("<h1>Directory listing for " ++ html_escape (ensureTrailingSlash u) ++
        "</h1>") ∈ dirHeaderParts (ensureTrailingSlash u) := by
      unfold dirHeaderParts
      simp only [List.mem_cons]
      tauto
    exact List.mem_append_left _ (List.mem_append_left _ (List.mem_append_left _ h))

/-- Helper: two strings with the same character data are equal. -/
theorem strData_inj {s t : String} (h : s.data = t.data) : s = t := by
  cases s
  cases t
  exact congrArg String.mk h

/-- Helper: `dropWhile` skips a leading block whose members all satisfy the
predicate. -/
theorem dropWhile_append_of_all {α : Type} (p : α → Bool) (l₁ l₂ : List α)
    (h : ∀ x ∈ l₁, p x = true) : (l₁ ++ l₂).dropWhile p = l₂.dropWhile p := by
  induction l₁ with
  | nil => rfl
  | cons x xs ih =>
    simp only [List.cons_append, List.dropWhile_cons]
    rw [if_pos (h x (by simp)), ih (fun c hc => h c (by simp [hc]))]

/-- Helper: the last element of a list, when there is one, is a member. -/
theorem mem_of_getLast?_eq {α : Type} {l : List α} {a : α} (h : l.getLast? = some a) :
    a ∈ l := by
  induction l with
  | nil => simp at h
  | cons x xs ih =>
    cases xs with
    | nil =>
      simp at h
      simp [h]
    | cons y ys =>
      rw [List.getLast?_cons_cons] at h
      exact List.mem_cons_of_mem x (ih h)

/-- Helper: `joinSlash` over an `init ++ [last]` split. -/
theorem joinSlash_append_single (init : List String) (lastSeg : String) (h : init ≠ []) :
    joinSlash (init ++ [lastSeg]) = joinSlash init ++ "/" ++ lastSeg := by
  induction init with
  | nil => exact absurd rfl h
  | cons s rest ih =>
    cases rest with
    | nil => rfl
    | cons t ts =>
      have h2 : joinSlash ((t :: ts) ++ [lastSeg]) = joinSlash (t :: ts) ++ "/" ++ lastSeg :=
        ih (List.cons_ne_nil t ts)
      calc joinSlash ((s :: t :: ts) ++ [lastSeg])
          = s ++ "/" ++ joinSlash ((t :: ts) ++ [lastSeg]) := rfl
        _ = s ++ "/" ++ (joinSlash (t :: ts) ++ "/" ++ lastSeg) := by rw [h2]
        _ = (s ++ "/" ++ joinSlash (t :: ts)) ++ "/" ++ lastSeg := by
              simp [String.append_assoc]
        _ = joinSlash (s :: t :: ts) ++ "/" ++ lastSeg := rfl

/-- Helper: a join of good segments is nonempty and neither starts nor ends
with a slash. -/
theorem joinSlash_wf (segs : List String) (hne : segs ≠ [])
    (hgood : ∀ s ∈ segs, GoodSeg s) :
    (joinSlash segs).data ≠ [] ∧
    (∀ c, (joinSlash segs).data.head? = some c → c ≠ '/') ∧
    (∀ c, (joinSlash segs).data.getLast? = some c → c ≠ '/') := by
  induction segs with
  | nil => exact absurd rfl hne
  | cons s rest ih =>
    have hs : GoodSeg s := hgood s (by simp)
    have hsdata : s.data ≠ [] := by
      intro hnil
      exact hs.1 (strData_inj hnil)
    cases rest with
    | nil =>
      refine ⟨hsdata, ?_, ?_⟩
      · intro c hc
        exact hs.2 c (List.mem_of_mem_head? hc)
      · intro c hc
        exact hs.2 c (mem_of_getLast?_eq hc)
    | cons t ts =>
      have hr := ih (List.cons_ne_nil t ts) (fun x hx => hgood x (List.mem_cons_of_mem s hx))
      have hdata : (joinSlash (s :: t :: ts)).data
          = s.data ++ '/' :: (joinSlash (t :: ts)).data := by
        show ((s ++ "/") ++ joinSlash (t :: ts)).data = _
        rw [String.data_append, String.data_append]
        simp
      refine ⟨?_, ?_, ?_⟩
      · rw [hdata]
        simp [hsdata]
      · intro c hc
        rw [hdata] at hc
        rcases List.exists_cons_of_ne_nil hsdata with ⟨x, xs, hx⟩
        rw [hx] at hc
        simp only [List.cons_append, List.head?_cons, Option.some.injEq] at hc
        refine hs.2 c ?_
        rw [hx, ← hc]
        exact List.mem_cons_self _ _
      · intro c hc
        rw [hdata] at hc
        rcases List.exists_cons_of_ne_nil hr.1 with ⟨j, js, hj⟩
        rw [hj] at hc
        rw [List.getLast?_append_of_ne_nil _ (by simp : ('/' :: j :: js) ≠ [])] at hc
        rw [List.getLast?_cons_cons] at hc
        exact hr.2.2 c (by rw [hj]; exact hc)

/-- Helper: `rstrip('/')` of a well-formed URL path `/seg1/../segN/` removes
exactly the trailing slash. -/
theorem rstripSlash_wf_url (segs : List String) (hne : segs ≠ [])
    (hgood : ∀ s ∈ segs, GoodSeg s) :
    rstripSlash ("/" ++ joinSlash segs ++ "/") = "/" ++ joinSlash segs := by
  have hw := joinSlash_wf segs hne hgood
  rcases List.eq_nil_or_concat (joinSlash segs).data with hn | ⟨J, c, hJ⟩
  · exact absurd hn hw.1
  rw [List.concat_eq_append] at hJ
  have hcnot : c ≠ '/' := hw.2.2 c (by rw [hJ]; exact List.getLast?_concat J)
  apply strData_inj
  have hdata : ("/" ++ joinSlash segs ++ "/").data
      = ('/' :: (joinSlash segs).data) ++ ['/'] := by
    rw [String.data_append, String.data_append]
    rfl
  show (("/" ++ joinSlash segs ++ "/").data.reverse.dropWhile (fun c => c = '/')).reverse
      = ("/" ++ joinSlash segs).data
  rw [hdata, hJ]
  have hrev : (('/' :: (J ++ [c])) ++ ['/']).reverse = '/' :: c :: (J.reverse ++ ['/']) := by
    simp
  rw [hrev]
  rw [List.dropWhile_cons]
  rw [if_pos (by simp)]
  rw [List.dropWhile_cons]
  rw [if_neg (by simp [hcnot])]
  have : ("/" ++ joinSlash segs).data = '/' :: (J ++ [c]) := by
    rw [String.data_append, hJ]
    rfl
  rw [this]
  simp

/-- Helper: `dirname` of `/seg` for a single good segment is `/`. -/
theorem dirname_slash_single (s : String) (h : GoodSeg s) : dirname ("/" ++ s) = "/" := by
  have hsdata : ∀ x ∈ s.data.reverse, (fun c => decide (c ≠ '/')) x = true := by
    intro x hx
    simp only [decide_eq_true_eq]
    exact h.2 x (List.mem_reverse.mp hx)
  have hdata : ("/" ++ s).data = '/' :: s.data := by
    rw [String.data_append]
    rfl
  unfold dirname
  rw [hdata]
  have hrev : ('/' :: s.data).reverse = s.data.reverse ++ ['/'] := by simp
  rw [hrev, dropWhile_append_of_all _ _ _ hsdata]
  rw [show List.dropWhile (fun c => decide (c ≠ '/')) ['/'] = ['/'] from by decide]
  rw [if_neg (by decide)]
  rfl

/-- Helper: `dirname` of `/init-join/seg` for good segments returns
`/init-join`. -/
theorem dirname_slash_deep (ji lastSeg : String) (hji : ji.data ≠ [])
    (hjihead : ∀ c, ji.data.head? = some c → c ≠ '/')
    (hjilast : ∀ c, ji.data.getLast? = some c → c ≠ '/')
    (hlast : GoodSeg lastSeg) :
    dirname ("/" ++ ji ++ "/" ++ lastSeg) = "/" ++ ji := by
  rcases List.eq_nil_or_concat ji.data with hn | ⟨J, d, hJ⟩
  · exact absurd hn hji
  rw [List.concat_eq_append] at hJ
  have hdnot : d ≠ '/' := hjilast d (by rw [hJ]; exact List.getLast?_concat J)
  rcases List.exists_cons_of_ne_nil hji with ⟨c0, tl, hc0⟩
  have hc0not : c0 ≠ '/' := hjihead c0 (by rw [hc0]; rfl)
  have hlastall : ∀ x ∈ lastSeg.data.reverse, (fun c => decide (c ≠ '/')) x = true := by
    intro x hx
    simp only [decide_eq_true_eq]
    exact hlast.2 x (List.mem_reverse.mp hx)
  have hdata : ("/" ++ ji ++ "/" ++ lastSeg).data
      = ('/' :: ji.data ++ ['/']) ++ lastSeg.data := by
    rw [String.data_append, String.data_append, String.data_append]
    rfl
  have hrev : ((('/' :: ji.data ++ ['/']) ++ lastSeg.data)).reverse
      = lastSeg.data.reverse ++ ('/' :: (ji.data.reverse ++ ['/'])) := by
    simp
  have hrest : List.dropWhile (fun c => decide (c ≠ '/'))
      (("/" ++ ji ++ "/" ++ lastSeg).data.reverse)
      = '/' :: (ji.data.reverse ++ ['/']) := by
    rw [hdata, hrev, dropWhile_append_of_all _ _ _ hlastall]
    rw [List.dropWhile_cons, if_neg (by simp)]
  have hany : ('/' :: (ji.data.reverse ++ ['/'])).any (fun c => decide (c ≠ '/')) = true := by
    apply List.any_eq_true.mpr
    refine ⟨c0, ?_, by simp [hc0not]⟩
    simp only [List.mem_cons, List.mem_append, List.mem_reverse]
    right
    left
    rw [hc0]
    simp
  unfold dirname
  rw [hrest]
  rw [if_pos ⟨by simp, hany⟩]
  apply strData_inj
  show (List.dropWhile (fun c => c = '/') ('/' :: (ji.data.reverse ++ ['/']))).reverse
      = ("/" ++ ji).data
  rw [List.dropWhile_cons, if_pos (by simp)]
  rw [hJ]
  rw [show ((J ++ [d]).reverse ++ ['/']) = d :: (J.reverse ++ ['/']) from by simp]
  rw [List.dropWhile_cons, if_neg (by simp [hdnot])]
  rw [show ("/" ++ ji).data = '/' :: ji.data from by rw [String.data_append]; rfl, hJ]
  simp

/-- Helper: the character data of the one-slash string. -/
theorem slash_data : ("/" : String).data = ['/'] := rfl

/-- Helper: appending the empty string changes nothing. -/
theorem append_empty_str (s : String) : s ++ "" = s :=
  strData_inj (by rw [String.data_append]; exact List.append_nil s.data)

/-- Helper: a string with a trailing slash appended ends with a slash. -/
theorem endsWithSlash_concat (s : String) : endsWithSlash (s ++ "/") = true := by
  unfold endsWithSlash
  rw [String.data_append, slash_data, List.getLast?_concat]
  rfl

/-- C6: a listing for the served root URL path `/` contains no
parent-directory row; a listing for any URL path `/seg1/../segN/` built from
well-formed segments contains exactly one parent-directory row, placed
directly after the fixed header and before every entry row, and its link
target path is the URL path with its last segment removed, always ending in
`/` (so the row's href is `BASE_PATH` followed by that parent path). -/
theorem parent_directory_link (items : List Item) (init : List String) (lastSeg : String)
    (hinit : ∀ s ∈ init, GoodSeg s) (hlast : GoodSeg lastSeg) :
    directoryHtmlParts items "/" =
      dirHeaderParts "/" ++ (items.map (entryRowHtml "/") ++ dirFooterParts items) ∧
    directoryHtmlParts items ("/" ++ joinSlash (init ++ [lastSeg]) ++ "/") =
      dirHeaderParts ("/" ++ joinSlash (init ++ [lastSeg]) ++ "/") ++
        ([parentRowHtml ("/" ++ joinSlash (init ++ [lastSeg]) ++ "/")] ++
          (items.map (entryRowHtml ("/" ++ joinSlash (init ++ [lastSeg]) ++ "/")) ++
            dirFooterParts items)) ∧
    parent_path ("/" ++ joinSlash (init ++ [lastSeg]) ++ "/") =
      "/" ++ (if init = [] then "" else joinSlash init ++ "/") ∧
    endsWithSlash (parent_path ("/" ++ joinSlash (init ++ [lastSeg]) ++ "/")) = true := by
  have hgoodall : ∀ s ∈ init ++ [lastSeg], GoodSeg s := by
    intro s hs
    rcases List.mem_append.mp hs with h | h
    · exact hinit s h
    · rw [List.mem_singleton] at h
      subst h
      exact hlast
  have hne : init ++ [lastSeg] ≠ ([] : List String) := by simp
  have hw := joinSlash_wf (init ++ [lastSeg]) hne hgoodall
  have hrstrip := rstripSlash_wf_url (init ++ [lastSeg]) hne hgoodall
  have hslash : endsWithSlash ("/" ++ joinSlash (init ++ [lastSeg]) ++ "/") = true := by
    rw [show ("/" ++ joinSlash (init ++ [lastSeg]) ++ "/")
        = ("/" ++ joinSlash (init ++ [lastSeg])) ++ "/" from rfl]
    exact endsWithSlash_concat _
  have hensure : ensureTrailingSlash ("/" ++ joinSlash (init ++ [lastSeg]) ++ "/")
      = "/" ++ joinSlash (init ++ [lastSeg]) ++ "/" := by
    unfold ensureTrailingSlash
    rw [if_pos hslash]
  have hune : ("/" ++ joinSlash (init ++ [lastSeg]) ++ "/") ≠ "/" := by
    intro h
    have hd := congrArg String.data h
    rw [String.data_append, String.data_append, slash_data] at hd
    have hlen := congrArg List.length hd
    simp only [List.length_append, List.length_cons, List.length_nil] at hlen
    have hJlen : 0 < (joinSlash (init ++ [lastSeg])).data.length :=
      List.length_pos.mpr hw.1
    omega
  have hstrip_ne : rstripSlash ("/" ++ joinSlash (init ++ [lastSeg]) ++ "/") ≠ "" := by
    rw [hrstrip]
    intro h
    have hd := congrArg String.data h
    rw [String.data_append, slash_data] at hd
    simp at hd
  have hparentRows : parentRows ("/" ++ joinSlash (init ++ [lastSeg]) ++ "/")
      = [parentRowHtml ("/" ++ joinSlash (init ++ [lastSeg]) ++ "/")] := by
    unfold parentRows
    rw [if_pos ⟨hune, hstrip_ne⟩]
  have hpp : parent_path ("/" ++ joinSlash (init ++ [lastSeg]) ++ "/")
      = "/" ++ (if init = [] then "" else joinSlash init ++ "/") := by
    simp only [parent_path]
    rw [hrstrip]
    cases init with
    | nil =>
      rw [show joinSlash ([] ++ [lastSeg]) = lastSeg from rfl]
      rw [dirname_slash_single lastSeg hlast]
      rw [if_pos (show endsWithSlash "/" = true from rfl)]
      simp [append_empty_str]
    | cons i irest =>
      have hwi := joinSlash_wf (i :: irest) (List.cons_ne_nil i irest)
        (fun s hs => hinit s hs)
      rw [joinSlash_append_single (i :: irest) lastSeg (List.cons_ne_nil i irest)]
      rw [show ("/" ++ (joinSlash (i :: irest) ++ "/" ++ lastSeg))
          = ("/" ++ joinSlash (i :: irest) ++ "/" ++ lastSeg) from by
        simp [String.append_assoc]]
      rw [dirname_slash_deep (joinSlash (i :: irest)) lastSeg hwi.1 hwi.2.1 hwi.2.2 hlast]
      have hnoslash : endsWithSlash ("/" ++ joinSlash (i :: irest)) = false := by
        unfold endsWithSlash
        rcases List.eq_nil_or_concat (joinSlash (i :: irest)).data with hn | ⟨K, e, hK⟩
        · exact absurd hn hwi.1
        rw [List.concat_eq_append] at hK
        have henot : e ≠ '/' := hwi.2.2 e (by rw [hK]; exact List.getLast?_concat K)
        rw [String.data_append, slash_data, hK]
        rw [show (['/'] ++ (K ++ [e])) = ('/' :: K) ++ [e] from by simp]
        rw [List.getLast?_concat]
        simp [henot]
      rw [if_neg (by simp [hnoslash])]
      simp [String.append_assoc]
  refine ⟨?_, ?_, hpp, ?_⟩
  · simp only [directoryHtmlParts]
    rw [show ensureTrailingSlash "/" = "/" from rfl]
    rw [show parentRows "/" = [] from by
      unfold parentRows
      rw [if_neg (fun hc => hc.1 rfl)]]
    simp
  · simp only [directoryHtmlParts]
    rw [hensure, hparentRows]
    simp [List.append_assoc]
  · rw [hpp]
    cases init with
    | nil =>
      rw [show (if ([] : List String) = [] then "" else joinSlash [] ++ "/") = "" from rfl]
      rw [append_empty_str]
      rfl
    | cons i irest =>
      rw [show ("/" ++ (if (i :: irest : List String) = [] then "" else joinSlash (i :: irest) ++ "/"))
          = ("/" ++ joinSlash (i :: irest)) ++ "/" from by
        rw [if_neg (by exact List.cons_ne_nil i irest), ← String.append_assoc]]
      exact endsWithSlash_concat _

/-- C6 witness: the two-segment URL path `/a/b/` gets exactly one parent row
whose target path is `/a/`, while the root path gets none. -/
theorem parent_directory_link_witness :
    directoryHtmlParts [] "/" =
      dirHeaderParts "/" ++ (List.map (entryRowHtml "/") [] ++ dirFooterParts []) ∧
    directoryHtmlParts [] ("/" ++ joinSlash (["a"] ++ ["b"]) ++ "/") =
      dirHeaderParts ("/" ++ joinSlash (["a"] ++ ["b"]) ++ "/") ++
        ([parentRowHtml ("/" ++ joinSlash (["a"] ++ ["b"]) ++ "/")] ++
          (List.map (entryRowHtml ("/" ++ joinSlash (["a"] ++ ["b"]) ++ "/")) [] ++
            dirFooterParts [])) ∧
    parent_path ("/" ++ joinSlash (["a"] ++ ["b"]) ++ "/") =
      "/" ++ (if (["a"] : List String) = [] then "" else joinSlash ["a"] ++ "/") ∧
    endsWithSlash (parent_path ("/" ++ joinSlash (["a"] ++ ["b"]) ++ "/")) = true :=
  parent_directory_link [] ["a"] "b"
    (by
      intro s hs
      rw [List.mem_singleton] at hs
      subst hs
      exact ⟨by decide, by decide⟩)
    ⟨by decide, by decide⟩

end FileServer
